import Mathlib

/-!
Verification development for the inventory manager repository
(`src/inventory/store.py`, `src/inventory/agent.py`).

The rule-based command parser of `agent.py` is embedded as executable
functions over `List Char` (Python strings); its regular-expression
primitives are embedded as left-to-right first-match scanners with the
exact semantics of the patterns used in the source.  The SQLite-backed
`Store` of `store.py` is embedded as an association list of rows with an
explicit `now` timestamp parameter; a failing operation returns an error
and (matching the rollback of the `with conn` transaction) leaves the
state unchanged.
-/

namespace Inventory

/-! ## Character classes (Python `re` semantics, ASCII) -/

/-- Python whitespace, the class matched by the regex escape for spaces. -/
def isSpacePy (c : Char) : Bool :=
  c = ' ' || c = '\t' || c = '\n' || c = '\r' || c = '\x0b' || c = '\x0c'

/-- Lowercase ASCII letter, the class `[a-z]`. -/
def isLowerAlpha (c : Char) : Bool :=
  'a' ≤ c && c ≤ 'z'

/-- ASCII digit, the class `[0-9]`. -/
def isDigitC (c : Char) : Bool :=
  c.isDigit

/-- Python word character (ASCII): letters, digits, underscore. -/
def isWordChar (c : Char) : Bool :=
  c.isAlphanum || c = '_'

/-- Token character: the class `[a-z0-9-_]` used by `_find_after`. -/
def isTokenChar (c : Char) : Bool :=
  isLowerAlpha c || c.isDigit || c = '-' || c = '_'

/-! ## String normalisation (`text.lower().strip()`) -/

/-- Python `str.strip()`: drop leading and trailing whitespace. -/
def pyStrip (l : List Char) : List Char :=
  ((l.dropWhile isSpacePy).reverse.dropWhile isSpacePy).reverse

/-- Normalisation applied by `_rule_based_parse`: lower-case then strip. -/
def pyNorm (s : String) : List Char :=
  pyStrip (s.toList.map Char.toLower)

/-- Python substring containment `pat in t`. -/
def containsSub (pat : List Char) : List Char → Bool
  | [] => pat.isEmpty
  | c :: rest => pat.isPrefixOf (c :: rest) || containsSub pat rest

/-! ## Extraction primitives of `agent.py` -/

/-- Numeric value of a list of ASCII digits, as Python `int()` reads it. -/
def digitsToNat (l : List Char) : Nat :=
  l.foldl (fun n c => 10 * n + (c.toNat - ('0').toNat)) 0

/-- Embedding of `_find_after(t, key)`: first match of the pattern
`key\s+([a-z0-9-_]+)`, scanning positions left to right. -/
def find_after (t key : List Char) : Option (List Char) :=
  match t with
  | [] => none
  | _ :: rest =>
    if key.isPrefixOf t then
      let after := t.drop key.length
      let ws := after.takeWhile isSpacePy
      if ws.isEmpty then find_after rest key
      else
        let tok := (after.drop ws.length).takeWhile isTokenChar
        if tok.isEmpty then find_after rest key else some tok
    else find_after rest key

/-- Scanner behind `_find_int`: the boolean records whether the previous
character was a word character (for the word-boundary check). -/
def findIntAux : List Char → Bool → Option Nat
  | [], _ => none
  | c :: rest, prevWord =>
    if !prevWord && isDigitC c then
      let run := (c :: rest).takeWhile isDigitC
      let after := (c :: rest).drop run.length
      let boundaryAfter := match after with
        | [] => true
        | d :: _ => !isWordChar d
      if boundaryAfter then some (digitsToNat run)
      else findIntAux rest (isWordChar c)
    else findIntAux rest (isWordChar c)

/-- Embedding of `_find_int(t)`: first standalone integer, the pattern
`\b(\d+)\b`. -/
def find_int (t : List Char) : Option Nat :=
  findIntAux t false

/-- Suffix of `t` after the first occurrence of `key`, or `none`. -/
def afterFirst (t key : List Char) : Option (List Char) :=
  match t with
  | [] => if key.isEmpty then some [] else none
  | _ :: rest =>
    if key.isPrefixOf t then some (t.drop key.length)
    else afterFirst rest key

/-- Embedding of `_find_int_after(t, key)`: the pattern `key[^0-9]*(\d+)`,
i.e. the first digit run after the first occurrence of `key`. -/
def find_int_after (t key : List Char) : Option Nat :=
  match afterFirst t key with
  | none => none
  | some s =>
    let s2 := s.dropWhile (fun c => !isDigitC c)
    if s2.isEmpty then none
    else some (digitsToNat (s2.takeWhile isDigitC))

/-- Embedding of `_find_float_after(t, key)`: the pattern
`key[^0-9]*([0-9]+(?:\.[0-9]+)?)`, read as a rational. -/
def find_float_after (t key : List Char) : Option Rat :=
  match afterFirst t key with
  | none => none
  | some s =>
    let s2 := s.dropWhile (fun c => !isDigitC c)
    if s2.isEmpty then none
    else
      let intPart := s2.takeWhile isDigitC
      let rest := s2.drop intPart.length
      match rest with
      | '.' :: r2 =>
        let frac := r2.takeWhile isDigitC
        if frac.isEmpty then some ((digitsToNat intPart : Rat))
        else some ((digitsToNat intPart : Rat) +
                   (digitsToNat frac : Rat) / ((10 : Rat) ^ frac.length))
      | _ => some ((digitsToNat intPart : Rat))

/-- Scanner for `letterRuns`: `acc` holds the letters of the current run
in reverse order. -/
def letterRunsAux : List Char → List Char → List (List Char)
  | [], acc => if acc.isEmpty then [] else [acc.reverse]
  | c :: rest, acc =>
    if isLowerAlpha c then letterRunsAux rest (c :: acc)
    else if acc.isEmpty then letterRunsAux rest []
    else acc.reverse :: letterRunsAux rest []

/-- Maximal runs of lowercase letters, as `re.findall` with class `[a-z]+`. -/
def letterRuns (t : List Char) : List (List Char) :=
  letterRunsAux t []

/-- Python `max(words, key=len)`: the first word of maximal length. -/
def maxByLen : List (List Char) → Option (List Char)
  | [] => none
  | w :: ws => some (ws.foldl (fun best x => if best.length < x.length then x else best) w)

/-- Embedding of `_find_name(t, exclude)`: longest alphabetic word not in
the exclusion set. -/
def find_name (t : List Char) (excl : List (List Char)) : Option (List Char) :=
  maxByLen ((letterRuns t).filter (fun w => !excl.contains w))

/-- Helper for `titlecase`: the boolean records whether the previous
character was alphabetic. -/
def titlecaseAux : List Char → Bool → List Char
  | [], _ => []
  | c :: rest, prevAlpha =>
    (if c.isAlpha then (if prevAlpha then c.toLower else c.toUpper) else c)
      :: titlecaseAux rest c.isAlpha

/-- Python `str.title()` on ASCII text. -/
def titlecase (l : List Char) : List Char :=
  titlecaseAux l false

/-- Python `str.upper()` on ASCII text. -/
def upperC (l : List Char) : List Char :=
  l.map Char.toUpper

/-! ## Actions and the rule-based parser -/

/-- Action record produced by the parser (`type` is the constructor). -/
inductive Action where
  | add (sku name : String) (quantity : Nat) (price : Rat)
  | subtract (sku : String) (quantity : Nat)
  | update (sku : String) (name : Option String) (quantity : Option Nat) (price : Option Rat)
  | delete (sku : String)
deriving DecidableEq, Repr

/-- Intent kind, used to talk about which branch classified the text. -/
inductive IntentK where
  | addK | subK | updK | delK
deriving DecidableEq, Repr

/-- Kind of an action. -/
def kindOf : Action → IntentK
  | .add .. => .addK
  | .subtract .. => .subK
  | .update .. => .updK
  | .delete .. => .delK

/-- Quantity field of an action, when present. -/
def Action.qty? : Action → Option Nat
  | .add _ _ q _ => some q
  | .subtract _ q => some q
  | .update _ _ q _ => q
  | .delete _ => none

/-- Causes of `AgentParseError` in `_rule_based_parse`. -/
inductive ParseErr where
  | skuMissingAdd | skuMissingSubtract | skuMissingUpdate | skuMissingDelete
  | nothingToUpdate | notRecognized
deriving DecidableEq, Repr

/-- Condition of the `add` branch:
`t.startswith("add") or " add " in t`. -/
def addKeyword (t : List Char) : Bool :=
  (("add").toList.isPrefixOf t) || containsSub (" add ").toList t

/-- Condition of the `subtract` branch: `t.startswith("subtract") or
t.startswith("minus") or " subtract " in t or " remove " in t`. -/
def subKeyword (t : List Char) : Bool :=
  (("subtract").toList.isPrefixOf t) || (("minus").toList.isPrefixOf t) ||
    containsSub (" subtract ").toList t || containsSub (" remove ").toList t

/-- Condition of the `update` branch:
`t.startswith("update") or " update " in t or " change " in t`. -/
def updKeyword (t : List Char) : Bool :=
  (("update").toList.isPrefixOf t) || containsSub (" update ").toList t ||
    containsSub (" change ").toList t

/-- Condition of the `delete` branch: `t.startswith("delete") or
" delete " in t or t.startswith("remove") or " remove sku" in t`. -/
def delKeyword (t : List Char) : Bool :=
  (("delete").toList.isPrefixOf t) || containsSub (" delete ").toList t ||
    (("remove").toList.isPrefixOf t) || containsSub (" remove sku").toList t

/-- SKU extraction `_find_after(t,"sku") or _find_after(t,"code")`
(captures are never empty, so Python truthiness is option choice). -/
def skuOf (t : List Char) : Option (List Char) :=
  match find_after t ("sku").toList with
  | some s => some s
  | none => find_after t ("code").toList

/-- Quantity extraction `_find_int(t) or 1`: Python `or` coerces both
`None` and `0` to the default `1`. -/
def qtyDefault (t : List Char) : Nat :=
  match find_int t with
  | some (Nat.succ n) => Nat.succ n
  | _ => 1

/-- Stop-set of `_find_name` in the add branch. -/
def stopWords : List (List Char) :=
  [("add").toList, ("with").toList, ("sku").toList, ("price").toList,
   ("update").toList, ("delete").toList, ("subtract").toList]

/-- Add branch of `_rule_based_parse` (the `if not sku: raise` check
fires before the action is returned). -/
def addBranch (t : List Char) : Except ParseErr Action :=
  match skuOf t with
  | none => .error .skuMissingAdd
  | some sku =>
    .ok (.add (String.mk (upperC sku))
      (String.mk (titlecase ((find_name t stopWords).getD sku)))
      (qtyDefault t)
      ((find_float_after t ("price").toList).getD 0))

/-- Subtract branch of `_rule_based_parse`. -/
def subBranch (t : List Char) : Except ParseErr Action :=
  match skuOf t with
  | none => .error .skuMissingSubtract
  | some sku => .ok (.subtract (String.mk (upperC sku)) (qtyDefault t))

/-- Quantity extraction of the update branch,
`_find_int_after(t,"qty") or _find_int_after(t,"quantity")`:
a zero result of the first pattern is falsy and falls through. -/
def updQty (t : List Char) : Option Nat :=
  match find_int_after t ("qty").toList with
  | some (Nat.succ n) => some (Nat.succ n)
  | _ => find_int_after t ("quantity").toList

/-- Update branch of `_rule_based_parse`: requires a SKU and at least one
of quantity, price, name (`len(data.keys())==2` raises). -/
def updBranch (t : List Char) : Except ParseErr Action :=
  match skuOf t with
  | none => .error .skuMissingUpdate
  | some sku =>
    if (updQty t).isNone && (find_float_after t ("price").toList).isNone &&
        (find_after t ("name").toList).isNone then
      .error .nothingToUpdate
    else
      .ok (.update (String.mk (upperC sku))
        ((find_after t ("name").toList).map (fun w => String.mk (titlecase w)))
        (updQty t) (find_float_after t ("price").toList))

/-- Delete branch of `_rule_based_parse`. -/
def delBranch (t : List Char) : Except ParseErr Action :=
  match skuOf t with
  | none => .error .skuMissingDelete
  | some sku => .ok (.delete (String.mk (upperC sku)))

/-- Branch dispatch of `_rule_based_parse` on normalised text. -/
def ruleParseNorm (t : List Char) : Except ParseErr Action :=
  if addKeyword t then addBranch t
  else if subKeyword t then subBranch t
  else if updKeyword t then updBranch t
  else if delKeyword t then delBranch t
  else .error .notRecognized

/-- Embedding of `_rule_based_parse(text)`. -/
def rule_based_parse (text : String) : Except ParseErr Action :=
  ruleParseNorm (pyNorm text)

/-- Intent classification as the spec describes it for claim C5 (amended):
the first matching keyword group, in the precedence order add-keywords >
subtract-keywords > update-keywords > delete-keywords, determines the
intent; no group matching means no intent. -/
def classifySpec (t : List Char) : Option IntentK :=
  if addKeyword t then some .addK
  else if subKeyword t then some .subK
  else if updKeyword t then some .updK
  else if delKeyword t then some .delK
  else none

/-! ## The Store (`store.py`)

One SQLite row of the `items` table.  `quantity` is a Python `int`
(arbitrary precision, embedded as `Int`); `price` is embedded as `Rat`;
`updated_at` is an abstract timestamp passed to each mutation as `now`. -/

/-- Persisted row of the `items` table. -/
structure ItemRec where
  sku : String
  name : String
  quantity : Int
  price : Rat
  updated_at : Nat
deriving DecidableEq, Repr

/-- Errors raised by `Store` operations: `duplicateKey` and `notFound`
and `insufficientStock` and `validation` are the `ValueError`s raised
explicitly in `store.py`; `checkViolation` is the `sqlite3.IntegrityError`
produced by the `CHECK(quantity >= 0)` / `CHECK(price >= 0)` constraints
of the schema (not a `ValueError`). -/
inductive StoreErr where
  | duplicateKey | notFound | insufficientStock | validation | checkViolation
deriving DecidableEq, Repr

/-- Store state: the rows of the `items` table in insertion order. -/
abbrev StoreState := List ItemRec

/-- Lookup used by every `SELECT ... WHERE sku=?` / `fetchone()`. -/
def findItem (s : StoreState) (sku : String) : Option ItemRec :=
  s.find? (fun r => r.sku == sku)

/-- Embedding of `Store.add_item`: existence check first (raises the
duplicate-key `ValueError`), then the `INSERT`, whose `CHECK` constraints
reject a negative quantity or price. -/
def add_item (s : StoreState) (sku name : String) (quantity : Int) (price : Rat)
    (now : Nat) : Except StoreErr StoreState :=
  if (findItem s sku).isSome then .error .duplicateKey
  else if quantity < 0 ∨ price < 0 then .error .checkViolation
  else .ok (s ++ [⟨sku, name, quantity, price, now⟩])

/-- True when the supplied optional quantity is negative. -/
def negOptInt : Option Int → Bool
  | some n => decide (n < 0)
  | none => false

/-- True when the supplied optional price is negative. -/
def negOptRat : Option Rat → Bool
  | some p => decide (p < 0)
  | none => false

/-- Embedding of `Store.update_item`: returns immediately when all three
optional fields are absent; then existence check, then the validation
checks on supplied quantity and price, then one `UPDATE` of exactly the
supplied fields plus `updated_at`. -/
def update_item (s : StoreState) (sku : String) (name : Option String)
    (quantity : Option Int) (price : Option Rat) (now : Nat) :
    Except StoreErr StoreState :=
  if name = none ∧ quantity = none ∧ price = none then .ok s
  else if (findItem s sku).isNone then .error .notFound
  else if negOptInt quantity then .error .validation
  else if negOptRat price then .error .validation
  else .ok (s.map (fun r =>
    if r.sku == sku then
      { r with name := name.getD r.name, quantity := quantity.getD r.quantity,
               price := price.getD r.price, updated_at := now }
    else r))

/-- Embedding of `Store.add_or_update`: `except ValueError` catches only
the duplicate-key error of `add_item`; an `IntegrityError` from the
`CHECK` constraints propagates. -/
def add_or_update (s : StoreState) (sku name : String) (quantity : Int) (price : Rat)
    (now : Nat) : Except StoreErr StoreState :=
  match add_item s sku name quantity price now with
  | .ok s2 => .ok s2
  | .error .duplicateKey => update_item s sku (some name) (some quantity) (some price) now
  | .error e => .error e

/-- Embedding of `Store.subtract_quantity`: returns the new quantity
together with the new state. -/
def subtract_quantity (s : StoreState) (sku : String) (qty : Int) (now : Nat) :
    Except StoreErr (Int × StoreState) :=
  match findItem s sku with
  | none => .error .notFound
  | some r =>
    if r.quantity < qty then .error .insufficientStock
    else
      let newq := r.quantity - qty
      .ok (newq, s.map (fun x =>
        if x.sku == sku then { x with quantity := newq, updated_at := now } else x))

/-- Embedding of `Store.delete_item`. -/
def delete_item (s : StoreState) (sku : String) : Except StoreErr StoreState :=
  if (findItem s sku).isNone then .error .notFound
  else .ok (s.filter (fun r => !(r.sku == sku)))

/-- Embedding of `Store.get_item` (`fetchone` on the primary key). -/
def get_item (s : StoreState) (sku : String) : Option ItemRec :=
  findItem s sku

/-- Embedding of `Store.list_items`: all rows `ORDER BY sku` ascending. -/
def list_items (s : StoreState) : List ItemRec :=
  s.mergeSort (fun a b => a.sku ≤ b.sku)

/-- State after an `add_item` call, a failing call leaving the table
unchanged (the transaction rolls back). -/
def addItemExec (s : StoreState) (sku name : String) (quantity : Int) (price : Rat)
    (now : Nat) : StoreState :=
  match add_item s sku name quantity price now with
  | .ok s2 => s2
  | .error _ => s

/-- State after a `subtract_quantity` call, a failing call leaving the
table unchanged (the transaction rolls back). -/
def subtractExec (s : StoreState) (sku : String) (qty : Int) (now : Nat) : StoreState :=
  match subtract_quantity s sku qty now with
  | .ok (_, s2) => s2
  | .error _ => s

/-- Data invariant of the schema: every row has non-negative quantity
and price. -/
def Inv (s : StoreState) : Prop :=
  ∀ r ∈ s, 0 ≤ r.quantity ∧ 0 ≤ r.price

/-- States reachable from the empty table by successful operations
(a failing operation rolls its transaction back and does not change the
state, so only successful steps matter). -/
inductive Reachable : StoreState → Prop where
  | empty : Reachable []
  | add {s s2 sku name q p now} : Reachable s →
      add_item s sku name q p now = .ok s2 → Reachable s2
  | addOrUpdate {s s2 sku name q p now} : Reachable s →
      add_or_update s sku name q p now = .ok s2 → Reachable s2
  | subtract {s s2 sku qty now n} : Reachable s →
      subtract_quantity s sku qty now = .ok (n, s2) → Reachable s2
  | update {s s2 sku name q p now} : Reachable s →
      update_item s sku name q p now = .ok s2 → Reachable s2
  | delete {s s2 sku} : Reachable s →
      delete_item s sku = .ok s2 → Reachable s2

/-! ## Helper lemmas about the store -/

theorem find?_map_if_update (s : StoreState) (sku : String) (upd : ItemRec → ItemRec)
    (hupd : ∀ x, (upd x).sku = x.sku) :
    (s.map (fun x => if x.sku == sku then upd x else x)).find? (fun x => x.sku == sku) =
      Option.map (fun x => if x.sku == sku then upd x else x)
        (s.find? (fun x => x.sku == sku)) := by
  rw [List.find?_map]
  have hcomp : ((fun x : ItemRec => x.sku == sku) ∘
      fun x : ItemRec => if x.sku == sku then upd x else x) =
      fun x : ItemRec => x.sku == sku := by
    funext x
    by_cases h : x.sku = sku <;> simp [Function.comp, h, hupd]
  rw [hcomp]

theorem findItem_map_update (s : StoreState) (sku : String) (r : ItemRec)
    (upd : ItemRec → ItemRec) (hupd : ∀ x, (upd x).sku = x.sku)
    (hfind : findItem s sku = some r) :
    findItem (s.map (fun x => if x.sku == sku then upd x else x)) sku = some (upd r) := by
  unfold findItem at hfind ⊢
  rw [find?_map_if_update s sku upd hupd, hfind]
  have hr := List.find?_some hfind
  simp only [Option.map]
  rw [if_pos hr]

/-! ## Claims about the store -/

/-- C1: for every sku not present in the store and every name,
quantity ≥ 0 and price ≥ 0, calling `add_item` and then `get_item`
returns a record with exactly those four values (with `updated_at` the
insertion time), and `list_items` includes that record. -/
theorem C1_add_then_get (s : StoreState) (sku name : String) (q : Int) (p : Rat)
    (now : Nat) (habs : findItem s sku = none) (hq : 0 ≤ q) (hp : 0 ≤ p) :
    add_item s sku name q p now = .ok (s ++ [⟨sku, name, q, p, now⟩]) ∧
    get_item (s ++ [⟨sku, name, q, p, now⟩]) sku = some ⟨sku, name, q, p, now⟩ ∧
    (⟨sku, name, q, p, now⟩ : ItemRec) ∈ list_items (s ++ [⟨sku, name, q, p, now⟩]) := by
  refine ⟨?_, ?_, ?_⟩
  · simp [add_item, habs, not_lt.2 hq, not_lt.2 hp]
  · unfold findItem at habs
    show findItem _ _ = _
    unfold findItem
    rw [List.find?_append, habs]
    simp [List.find?]
  · unfold list_items
    exact List.mem_mergeSort.mpr (List.mem_append_right s (by simp))

/-- C1 witness: a concrete instance of the add-then-get round trip. -/
theorem C1_witness :
    add_item [] "A1" "Apple" 5 2 7 = .ok [⟨"A1", "Apple", 5, 2, 7⟩] ∧
    get_item [⟨"A1", "Apple", 5, 2, 7⟩] "A1" = some ⟨"A1", "Apple", 5, 2, 7⟩ ∧
    (⟨"A1", "Apple", 5, 2, 7⟩ : ItemRec) ∈ list_items [⟨"A1", "Apple", 5, 2, 7⟩] :=
  C1_add_then_get [] "A1" "Apple" 5 2 7 rfl (by decide) (by decide)

/-- C4: for every sku already present and all arguments, `add_item`
fails with the duplicate-key error and leaves the table unchanged. -/
theorem C4_duplicate_add (s : StoreState) (sku : String) (r : ItemRec)
    (name : String) (q : Int) (p : Rat) (now : Nat)
    (hfind : findItem s sku = some r) :
    add_item s sku name q p now = .error .duplicateKey ∧
    addItemExec s sku name q p now = s := by
  have h1 : add_item s sku name q p now = .error .duplicateKey := by
    simp [add_item, hfind]
  refine ⟨h1, ?_⟩
  unfold addItemExec
  rw [h1]

/-- C4 witness: adding an existing sku fails and changes nothing. -/
theorem C4_witness :
    add_item [⟨"A1", "Apple", 5, 2, 0⟩] "A1" "Pear" 9 1 7 = .error .duplicateKey ∧
    addItemExec [⟨"A1", "Apple", 5, 2, 0⟩] "A1" "Pear" 9 1 7 = [⟨"A1", "Apple", 5, 2, 0⟩] :=
  C4_duplicate_add [⟨"A1", "Apple", 5, 2, 0⟩] "A1" ⟨"A1", "Apple", 5, 2, 0⟩ "Pear" 9 1 7 rfl

theorem subtract_ok_spec (s : StoreState) (sku : String) (r : ItemRec) (qty : Int)
    (now : Nat) (hfind : findItem s sku = some r) (hle : qty ≤ r.quantity) :
    subtract_quantity s sku qty now =
      .ok (r.quantity - qty, s.map (fun x =>
        if x.sku == sku then { x with quantity := r.quantity - qty, updated_at := now }
        else x)) ∧
    findItem (s.map (fun x =>
        if x.sku == sku then { x with quantity := r.quantity - qty, updated_at := now }
        else x)) sku = some { r with quantity := r.quantity - qty, updated_at := now } := by
  constructor
  · simp [subtract_quantity, hfind, not_lt.2 hle]
  · exact findItem_map_update s sku r _ (fun x => rfl) hfind

/-- C3: for a sku present with current quantity `c`: a subtraction of
more than `c` fails with the insufficient-stock error and leaves the
stored quantity unchanged; a subtraction of at most `c` succeeds,
stores exactly `c - qty` and returns it. -/
theorem C3_subtract_spec (s : StoreState) (sku : String) (r : ItemRec) (qty : Int)
    (now : Nat) (hfind : findItem s sku = some r) :
    (r.quantity < qty →
       subtract_quantity s sku qty now = .error .insufficientStock ∧
       subtractExec s sku qty now = s) ∧
    (qty ≤ r.quantity →
       ∃ s2, subtract_quantity s sku qty now = .ok (r.quantity - qty, s2) ∧
         findItem s2 sku = some { r with quantity := r.quantity - qty, updated_at := now }) := by
  constructor
  · intro hlt
    have h1 : subtract_quantity s sku qty now = .error .insufficientStock := by
      simp [subtract_quantity, hfind, hlt]
    refine ⟨h1, ?_⟩
    unfold subtractExec
    rw [h1]
  · intro hle
    obtain ⟨h1, h2⟩ := subtract_ok_spec s sku r qty now hfind hle
    exact ⟨_, h1, h2⟩

/-- C3 witness: concrete failing and succeeding subtractions. -/
theorem C3_witness :
    (subtract_quantity [⟨"A1", "Apple", 5, 2, 0⟩] "A1" 7 1 = .error .insufficientStock ∧
     subtractExec [⟨"A1", "Apple", 5, 2, 0⟩] "A1" 7 1 = [⟨"A1", "Apple", 5, 2, 0⟩]) ∧
    (∃ s2, subtract_quantity [⟨"A1", "Apple", 5, 2, 0⟩] "A1" 3 1 = .ok (2, s2) ∧
       findItem s2 "A1" = some ⟨"A1", "Apple", 2, 2, 1⟩) := by
  have h := C3_subtract_spec [⟨"A1", "Apple", 5, 2, 0⟩] "A1" ⟨"A1", "Apple", 5, 2, 0⟩ 7 1 rfl
  have h2 := C3_subtract_spec [⟨"A1", "Apple", 5, 2, 0⟩] "A1" ⟨"A1", "Apple", 5, 2, 0⟩ 3 1 rfl
  exact ⟨h.1 (by decide), h2.2 (by decide)⟩

/-- C10: `subtract_quantity` does not require a positive `qty`: any
`qty ≤ c` (including zero and negative values) succeeds and stores
`c - qty`, so a negative `qty` strictly increases the stock. -/
theorem C10_subtract_negative (s : StoreState) (sku : String) (r : ItemRec)
    (qty : Int) (now : Nat) (hfind : findItem s sku = some r)
    (hle : qty ≤ r.quantity) :
    ∃ s2, subtract_quantity s sku qty now = .ok (r.quantity - qty, s2) ∧
      findItem s2 sku = some { r with quantity := r.quantity - qty, updated_at := now } ∧
      (qty < 0 → r.quantity < r.quantity - qty) := by
  obtain ⟨h1, h2⟩ := subtract_ok_spec s sku r qty now hfind hle
  exact ⟨_, h1, h2, fun hneg => by omega⟩

/-- C7: `update_item` with all three optional fields absent is a no-op
returning the state unchanged (timestamps included); when the sku exists
and the supplied subset of fields is valid, exactly the supplied fields
plus `updated_at` change, every other field keeps its value, and rows
with other skus are untouched. -/
theorem C7_update_frame :
    (∀ (s : StoreState) (sku : String) (now : Nat),
        update_item s sku none none none now = .ok s) ∧
    (∀ (s : StoreState) (sku : String) (r : ItemRec) (nm : Option String)
        (q : Option Int) (p : Option Rat) (now : Nat),
        findItem s sku = some r →
        ¬(nm = none ∧ q = none ∧ p = none) →
        (∀ n, q = some n → 0 ≤ n) →
        (∀ x, p = some x → 0 ≤ x) →
        ∃ s2, update_item s sku nm q p now = .ok s2 ∧
          findItem s2 sku = some
            { r with
              name := nm.getD r.name,
              quantity := q.getD r.quantity,
              price := p.getD r.price,
              updated_at := now } ∧
          ∀ x ∈ s, x.sku ≠ sku → x ∈ s2) := by
  constructor
  · intro s sku now
    simp [update_item]
  · intro s sku r nm q p now hfind hsome hq hp
    have hqneg : negOptInt q = false := by
      cases q with
      | none => rfl
      | some n =>
        have := hq n rfl
        simp [negOptInt]
        omega
    have hpneg : negOptRat p = false := by
      cases p with
      | none => rfl
      | some x =>
        have := hp x rfl
        simp [negOptRat]
        linarith
    have hstep : update_item s sku nm q p now = .ok (s.map (fun x =>
        if x.sku == sku then
          { x with
            name := nm.getD x.name,
            quantity := q.getD x.quantity,
            price := p.getD x.price,
            updated_at := now }
        else x)) := by
      unfold update_item
      rw [if_neg hsome]
      rw [if_neg (show ¬ (findItem s sku).isNone = true by rw [hfind]; simp)]
      rw [if_neg (show ¬ negOptInt q = true by rw [hqneg]; simp)]
      rw [if_neg (show ¬ negOptRat p = true by rw [hpneg]; simp)]
    refine ⟨_, hstep, ?_, ?_⟩
    · exact findItem_map_update s sku r _ (fun x => rfl) hfind
    · intro x hx hne
      refine List.mem_map.mpr ⟨x, hx, ?_⟩
      rw [if_neg (by simp [hne])]

/-- C7 witness: a no-op update and a partial update on a concrete row. -/
theorem C7_witness :
    update_item [⟨"A1", "Apple", 5, 2, 0⟩] "A1" none none none 9 =
      .ok [⟨"A1", "Apple", 5, 2, 0⟩] ∧
    ∃ s2, update_item [⟨"A1", "Apple", 5, 2, 0⟩] "A1" (some "Pear") none (some 3) 9 =
        .ok s2 ∧
      findItem s2 "A1" = some ⟨"A1", "Pear", 5, 3, 9⟩ ∧
      ∀ x ∈ [(⟨"A1", "Apple", 5, 2, 0⟩ : ItemRec)], x.sku ≠ "A1" → x ∈ s2 := by
  refine ⟨C7_update_frame.1 _ _ _, ?_⟩
  exact C7_update_frame.2 [⟨"A1", "Apple", 5, 2, 0⟩] "A1" ⟨"A1", "Apple", 5, 2, 0⟩
    (some "Pear") none (some 3) 9 rfl (by simp)
    (fun n h => by cases h) (fun x h => by cases h; decide)

/-! ## Preservation of the schema invariant (claim C2) -/

theorem inv_add_item {s s2 : StoreState} {sku name : String} {q : Int} {p : Rat}
    {now : Nat} (hinv : Inv s) (h : add_item s sku name q p now = .ok s2) : Inv s2 := by
  unfold add_item at h
  split at h
  · cases h
  · split at h
    · cases h
    · rename_i h1 h2
      injection h with h3
      subst h3
      push_neg at h2
      intro x hx
      rcases List.mem_append.mp hx with hx | hx
      · exact hinv x hx
      · simp only [List.mem_singleton] at hx
        subst hx
        exact ⟨h2.1, h2.2⟩

theorem inv_update_item {s s2 : StoreState} {sku : String} {nm : Option String}
    {q : Option Int} {p : Option Rat} {now : Nat} (hinv : Inv s)
    (h : update_item s sku nm q p now = .ok s2) : Inv s2 := by
  unfold update_item at h
  split at h
  · injection h with h3
    subst h3
    exact hinv
  · split at h
    · cases h
    · split at h
      · cases h
      · split at h
        · cases h
        · rename_i hnone hfound hqneg hpneg
          injection h with h3
          subst h3
          intro x hx
          obtain ⟨y, hy, hxy⟩ := List.mem_map.mp hx
          subst hxy
          by_cases hsku : (y.sku == sku) = true
          · rw [if_pos hsku]
            constructor
            · cases q with
              | none => exact (hinv y hy).1
              | some n =>
                simp only [negOptInt, decide_eq_true_eq] at hqneg
                simpa using not_lt.1 hqneg
            · cases p with
              | none => exact (hinv y hy).2
              | some v =>
                simp only [negOptRat, decide_eq_true_eq] at hpneg
                simpa using not_lt.1 hpneg
          · rw [if_neg hsku]
            exact hinv y hy

theorem inv_subtract {s s2 : StoreState} {sku : String} {qty : Int} {now : Nat}
    {n : Int} (hinv : Inv s)
    (h : subtract_quantity s sku qty now = .ok (n, s2)) : Inv s2 := by
  unfold subtract_quantity at h
  split at h
  · cases h
  · rename_i r2 heq
    split at h
    · cases h
    · rename_i hlt
      injection h with h3
      obtain ⟨h4, h5⟩ := Prod.mk.injEq .. |>.mp h3
      subst h5
      intro x hx
      obtain ⟨y, hy, hxy⟩ := List.mem_map.mp hx
      subst hxy
      by_cases hsku : (y.sku == sku) = true
      · rw [if_pos hsku]
        refine ⟨?_, (hinv y hy).2⟩
        show 0 ≤ r2.quantity - qty
        omega
      · rw [if_neg hsku]
        exact hinv y hy

theorem inv_delete {s s2 : StoreState} {sku : String} (hinv : Inv s)
    (h : delete_item s sku = .ok s2) : Inv s2 := by
  unfold delete_item at h
  split at h
  · cases h
  · injection h with h3
    subst h3
    intro x hx
    exact hinv x (List.mem_of_mem_filter hx)

theorem inv_add_or_update {s s2 : StoreState} {sku name : String} {q : Int} {p : Rat}
    {now : Nat} (hinv : Inv s) (h : add_or_update s sku name q p now = .ok s2) :
    Inv s2 := by
  unfold add_or_update at h
  cases hadd : add_item s sku name q p now with
  | ok s3 =>
    rw [hadd] at h
    injection h with h3
    subst h3
    exact inv_add_item hinv hadd
  | error e =>
    rw [hadd] at h
    cases e with
    | duplicateKey => exact inv_update_item hinv h
    | notFound => cases h
    | insufficientStock => cases h
    | validation => cases h
    | checkViolation => cases h

/-- C2: every store state reachable from the empty table by the five
mutation operations satisfies the schema invariant: all stored rows have
non-negative quantity and non-negative price. -/
theorem C2_reachable_nonneg (s : StoreState) (h : Reachable s) : Inv s := by
  induction h with
  | empty => intro r hr; cases hr
  | add _ hstep ih => exact inv_add_item ih hstep
  | addOrUpdate _ hstep ih => exact inv_add_or_update ih hstep
  | subtract _ hstep ih => exact inv_subtract ih hstep
  | update _ hstep ih => exact inv_update_item ih hstep
  | delete _ hstep ih => exact inv_delete ih hstep

/-- C2 witness: the invariant at a concrete reachable state. -/
theorem C2_witness : Inv [⟨"A1", "Apple", 5, 2, 7⟩] :=
  C2_reachable_nonneg _
    (Reachable.add Reachable.empty
      (show add_item [] "A1" "Apple" 5 2 7 = .ok [⟨"A1", "Apple", 5, 2, 7⟩] from rfl))

/-- C10 witness: subtracting a negative quantity increases the stock. -/
theorem C10_witness :
    ∃ s2, subtract_quantity [⟨"A1", "Apple", 5, 2, 0⟩] "A1" (-3) 1 = .ok (8, s2) ∧
      findItem s2 "A1" = some ⟨"A1", "Apple", 8, 2, 1⟩ ∧
      ((-3 : Int) < 0 → (5 : Int) < 8) := by
  have h := C10_subtract_negative [⟨"A1", "Apple", 5, 2, 0⟩] "A1"
    ⟨"A1", "Apple", 5, 2, 0⟩ (-3) 1 rfl (by decide)
  exact h

/-! ## Claims about the rule-based parser -/

/-- C6: the rule-based parse of the exact input
`add 20 bananas with sku B300 price 90` is the action
`add` with sku B300, name Bananas, quantity 20 and price 90. -/
theorem C6_add_example :
    rule_based_parse "add 20 bananas with sku B300 price 90" =
      .ok (.add "B300" "Bananas" 20 90) := by
  rfl

theorem ruleParseNorm_kind (t : List Char) (a : Action)
    (h : ruleParseNorm t = .ok a) : classifySpec t = some (kindOf a) := by
  unfold ruleParseNorm at h
  unfold classifySpec
  split at h
  · rename_i h1
    rw [if_pos h1]
    unfold addBranch at h
    split at h
    · cases h
    · injection h with h2
      subst h2
      rfl
  · rename_i h1
    rw [if_neg h1]
    split at h
    · rename_i h2
      rw [if_pos h2]
      unfold subBranch at h
      split at h
      · cases h
      · injection h with h3
        subst h3
        rfl
    · rename_i h2
      rw [if_neg h2]
      split at h
      · rename_i h3
        rw [if_pos h3]
        unfold updBranch at h
        split at h
        · cases h
        · split at h
          · cases h
          · injection h with h4
            subst h4
            rfl
      · rename_i h3
        rw [if_neg h3]
        split at h
        · rename_i h4
          rw [if_pos h4]
          unfold delBranch at h
          split at h
          · cases h
          · injection h with h5
            subst h5
            rfl
        · cases h

/-- C5 (amended): the rule-based strategy classifies intent by the
precedence add-keywords > subtract-keywords > update-keywords >
delete-keywords, where the verb remove counts as a subtract keyword only
when it appears with a space on both sides, while a text starting with
remove (or containing the substring " remove sku") that matches no
earlier group is classified as delete regardless of any quantity
pattern; in particular "remove 3 sku B1" parses as a delete action. -/
theorem C5_precedence :
    (∀ (text : String) (a : Action), rule_based_parse text = .ok a →
        classifySpec (pyNorm text) = some (kindOf a)) ∧
    rule_based_parse "remove 3 sku B1" = .ok (.delete "B1") := by
  constructor
  · intro text a h
    exact ruleParseNorm_kind (pyNorm text) a h
  · rfl

/-- C5 counterexample: the claim says "remove 3 sku B1" parses as a
subtract action; the code parses it as a delete action (the leading
"remove" matches none of the subtract patterns, which all require a
space before the verb, and falls through to the delete branch). -/
theorem C5_counterexample :
    rule_based_parse "remove 3 sku B1" = .ok (.delete "B1") ∧
    (rule_based_parse "remove 3 sku B1").map kindOf ≠ .ok .subK := by
  refine ⟨rfl, ?_⟩
  intro h
  exact IntentK.noConfusion (Except.ok.inj h)

/-- C5 witness: the classification statement applied at the concrete
delete input. -/
theorem C5_witness :
    classifySpec (pyNorm "remove 3 sku B1") = some IntentK.delK :=
  C5_precedence.1 "remove 3 sku B1" (.delete "B1") rfl

/-- C8: any input the rule-based strategy classifies as an update, in
which a sku token is found but none of the three optional fields is
found, fails with a parse error (there is nothing to update). -/
theorem C8_update_no_fields (text : String) (sku : List Char)
    (hadd : addKeyword (pyNorm text) = false)
    (hsub : subKeyword (pyNorm text) = false)
    (hupd : updKeyword (pyNorm text) = true)
    (hsku : skuOf (pyNorm text) = some sku)
    (hq : find_int_after (pyNorm text) ("qty").toList = none)
    (hq2 : find_int_after (pyNorm text) ("quantity").toList = none)
    (hp : find_float_after (pyNorm text) ("price").toList = none)
    (hn : find_after (pyNorm text) ("name").toList = none) :
    rule_based_parse text = .error .nothingToUpdate := by
  unfold rule_based_parse ruleParseNorm
  rw [if_neg (show ¬ addKeyword (pyNorm text) = true by rw [hadd]; simp)]
  rw [if_neg (show ¬ subKeyword (pyNorm text) = true by rw [hsub]; simp)]
  rw [if_pos hupd]
  have hqq : updQty (pyNorm text) = none := by
    unfold updQty
    rw [hq]
    exact hq2
  unfold updBranch
  rw [hsku, hqq, hp, hn]
  rfl

/-- C8 witness: "update sku B300" fails with the nothing-to-update
parse error. -/
theorem C8_witness : rule_based_parse "update sku B300" = .error .nothingToUpdate :=
  C8_update_no_fields "update sku B300" (("b300").toList)
    rfl rfl rfl rfl rfl rfl rfl rfl

/-- C9: the parser coerces an extracted integer zero to the absent case:
in an add-classified text whose first standalone integer is 0 the action
gets quantity 1; in an update-classified text where the qty pattern
yields 0 (and no separate quantity pattern supplies a value) the
quantity field is omitted, so an update whose only supplied field is a
zero quantity fails with a parse error. -/
theorem C9_zero_quantity_coercion :
    (∀ (text : String) (a : Action), rule_based_parse text = .ok a →
        addKeyword (pyNorm text) = true →
        find_int (pyNorm text) = some 0 →
        a.qty? = some 1) ∧
    (∀ (text : String) (a : Action), rule_based_parse text = .ok a →
        addKeyword (pyNorm text) = false →
        subKeyword (pyNorm text) = false →
        updKeyword (pyNorm text) = true →
        find_int_after (pyNorm text) ("qty").toList = some 0 →
        find_int_after (pyNorm text) ("quantity").toList = none →
        a.qty? = none) ∧
    (∀ (text : String) (sku : List Char),
        addKeyword (pyNorm text) = false →
        subKeyword (pyNorm text) = false →
        updKeyword (pyNorm text) = true →
        skuOf (pyNorm text) = some sku →
        find_int_after (pyNorm text) ("qty").toList = some 0 →
        find_int_after (pyNorm text) ("quantity").toList = none →
        find_float_after (pyNorm text) ("price").toList = none →
        find_after (pyNorm text) ("name").toList = none →
        rule_based_parse text = .error .nothingToUpdate) := by
  refine ⟨?_, ?_, ?_⟩
  · intro text a h hadd hint
    unfold rule_based_parse ruleParseNorm at h
    rw [if_pos hadd] at h
    unfold addBranch at h
    split at h
    · cases h
    · injection h with h2
      subst h2
      simp only [Action.qty?]
      unfold qtyDefault
      rw [hint]
  · intro text a h hadd hsub hupd hq0 hq2
    unfold rule_based_parse ruleParseNorm at h
    rw [if_neg (show ¬ addKeyword (pyNorm text) = true by rw [hadd]; simp)] at h
    rw [if_neg (show ¬ subKeyword (pyNorm text) = true by rw [hsub]; simp)] at h
    rw [if_pos hupd] at h
    have hqq : updQty (pyNorm text) = none := by
      unfold updQty
      rw [hq0]
      exact hq2
    unfold updBranch at h
    rw [hqq] at h
    split at h
    · cases h
    · split at h
      · cases h
      · injection h with h2
        subst h2
        rfl
  · intro text sku hadd hsub hupd hsku hq0 hq2 hp hn
    unfold rule_based_parse ruleParseNorm
    rw [if_neg (show ¬ addKeyword (pyNorm text) = true by rw [hadd]; simp)]
    rw [if_neg (show ¬ subKeyword (pyNorm text) = true by rw [hsub]; simp)]
    rw [if_pos hupd]
    have hqq : updQty (pyNorm text) = none := by
      unfold updQty
      rw [hq0]
      exact hq2
    unfold updBranch
    rw [hsku, hqq, hp, hn]
    rfl

/-- C9 witness: concrete zero-quantity coercions: an add with first
integer 0 gets quantity 1; an update supplying only qty 0 fails; an
update supplying qty 0 and a price omits the quantity field. -/
theorem C9_witness :
    (∃ a, rule_based_parse "add 0 apples sku A1" = .ok a ∧ a.qty? = some 1) ∧
    rule_based_parse "update sku B300 qty 0" = .error .nothingToUpdate ∧
    (∃ a, rule_based_parse "update sku B300 qty 0 price 5" = .ok a ∧ a.qty? = none) := by
  refine ⟨⟨.add "A1" "Apples" 1 0, rfl, ?_⟩, ?_, ⟨.update "B300" none none (some 5), rfl, ?_⟩⟩
  · exact C9_zero_quantity_coercion.1 "add 0 apples sku A1" (.add "A1" "Apples" 1 0) rfl rfl rfl
  · exact C9_zero_quantity_coercion.2.2 "update sku B300 qty 0" (("b300").toList)
      rfl rfl rfl rfl rfl rfl rfl rfl
  · exact C9_zero_quantity_coercion.2.1 "update sku B300 qty 0 price 5"
      (.update "B300" none none (some 5)) rfl rfl rfl rfl rfl rfl

end Inventory
